import Mathlib

/-!
Verification of the Kaelion AI colorimetric calibration and diagnosis engine
(frontend of the kaelion-ai urine-strip analyzer).

The pad sampler is `computePadsFromImage` in the AnalyzerCard component; the
detection gate and crop helper live in the StripAnalyzer component; the
calibration and diagnosis HTTP clients live in `eiApi.js`; the App component
threads the reference map through diagnosis calls.  Those JS functions are
embedded below as Lean functions over exact (`Nat` / `Int` / `Rat`) arithmetic:
the canvas drawn from a loaded image is modelled as a total pixel function
(`getImageData` always yields bytes, out-of-canvas reads included), and
`Math.round` on a non-negative quotient is modelled as `⌊q + 1/2⌋` on `ℚ`.
The FastAPI backend (Calibrator / DiagnosisMatcher) is not part of this
source tree; where a claim depends on it, the definition is modelled from the
spec and marked as such in its doc comment.
-/

/-- An RGB color as produced by canvas `getImageData`: one natural number per
channel (bytes, hence `≤ 255`, which is tracked as a separate predicate). -/
structure Color where
  r : Nat
  g : Nat
  b : Nat
deriving DecidableEq, Repr

/-- Channel bytes of a canvas pixel are in [0,255]. -/
def Color.Valid (c : Color) : Prop := c.r ≤ 255 ∧ c.g ≤ 255 ∧ c.b ≤ 255

/-- The canvas the chart/strip image has been drawn onto, scaled to the fixed
working width 640: its height and a total pixel function (canvas
`getImageData` returns defined bytes for every coordinate). -/
structure Canvas where
  height : Nat
  pix : Nat → Nat → Color

/-- Every pixel of the canvas has byte channels. -/
def Canvas.Valid (cv : Canvas) : Prop := ∀ x y, (cv.pix x y).Valid

/-- `y0 = i * padH` with `padH = Math.floor(H / padsCount)`: the top edge of
band `i` in `computePadsFromImage` (AnalyzerCard). -/
def bandStart (H N i : Nat) : Nat := i * (H / N)

/-- `h = (i === padsCount - 1) ? H - y0 : padH`: the height of band `i` in
`computePadsFromImage` (AnalyzerCard). -/
def bandHeight (H N i : Nat) : Nat :=
  if i = N - 1 then H - bandStart H N i else H / N

/-- Working-canvas row `y` falls inside band `i`. -/
def inBand (H N i y : Nat) : Prop :=
  bandStart H N i ≤ y ∧ y < bandStart H N i + bandHeight H N i

/-- JavaScript `Math.round` applied to the non-negative quotient of the pixel
sum by the pixel count: round half up, `⌊x + 1/2⌋`. -/
def mathRound (x : ℚ) : Nat := (⌊x + 1 / 2⌋).toNat

/-- The pixels returned by `ctx.getImageData(x1, y1, w, h)`, row-major as in
the canvas data array. -/
def rectPixels (cv : Canvas) (x1 y1 w h : Nat) : List Color :=
  (List.range h).flatMap fun dy => (List.range w).map fun dx =>
    cv.pix (x1 + dx) (y1 + dy)

/-- The accumulation loop `r += …; g += …; b += …; c++` over the sampled
pixel data in `computePadsFromImage`. -/
def sumLoop (pix : List Color) : Nat × Nat × Nat × Nat :=
  pix.foldl (fun a c => (a.1 + c.r, a.2.1 + c.g, a.2.2.1 + c.b, a.2.2.2 + 1))
    (0, 0, 0, 0)

/-- `{ r: Math.round(r/c), g: Math.round(g/c), b: Math.round(b/c) }`: the mean
color pushed for a non-degenerate band in `computePadsFromImage`. -/
def meanColor (cv : Canvas) (x1 y1 w h : Nat) : Color :=
  let acc := sumLoop (rectPixels cv x1 y1 w h)
  { r := mathRound ((acc.1 : ℚ) / (acc.2.2.2 : ℚ))
    g := mathRound ((acc.2.1 : ℚ) / (acc.2.2.2 : ℚ))
    b := mathRound ((acc.2.2.1 : ℚ) / (acc.2.2.2 : ℚ)) }

/-- `x1 = Math.floor(W * 0.15)` with the fixed working width `W = 640`. -/
def sampleX1 : Nat := 640 * 15 / 100

/-- `x2 = Math.floor(W * 0.85)` with the fixed working width `W = 640`. -/
def sampleX2 : Nat := 640 * 85 / 100

/-- `w = x2 - x1`: the horizontal span sampled in every band. -/
def sampleW : Nat := sampleX2 - sampleX1

/-- `y1 = y0 + Math.floor(h * 0.15)`: top of the sampled rectangle of band
`i`. -/
def sampleY1 (H N i : Nat) : Nat :=
  bandStart H N i + bandHeight H N i * 15 / 100

/-- `y2 = y0 + Math.floor(h * 0.85)`. -/
def sampleY2 (H N i : Nat) : Nat :=
  bandStart H N i + bandHeight H N i * 85 / 100

/-- `hh = Math.max(4, y2 - y1)`: the vertical span sampled in band `i`. -/
def sampleH (H N i : Nat) : Nat := max 4 (sampleY2 H N i - sampleY1 H N i)

/-- One iteration of the band loop in `computePadsFromImage`: on a degenerate
span (`w <= 0 || hh <= 0`, which over naturals is `= 0`) the sentinel color
`(255,255,255)` is pushed, otherwise the mean color of the sampled
rectangle. -/
def padOfBand (cv : Canvas) (N i : Nat) : Color :=
  if sampleW = 0 ∨ sampleH cv.height N i = 0 then ⟨255, 255, 255⟩
  else meanColor cv sampleX1 (sampleY1 cv.height N i) sampleW
    (sampleH cv.height N i)

/-- The band loop of `computePadsFromImage` (AnalyzerCard): one pushed color
per index `i = 0 … padsCount-1`, in order. -/
def computePadsFromImage (cv : Canvas) (padsCount : Nat) : List Color :=
  (List.range padsCount).map (padOfBand cv padsCount)

/-- `computePadsFromImage` as a fallible call: the promise rejects (with
`new Error("Could not load image")`, from `img.onerror`) exactly when the
image is missing/unloadable; otherwise it resolves with the pad list. -/
def computePadsResult (img : Option Canvas) (padsCount : Nat) :
    Except String (List Color) :=
  match img with
  | none => .error "Could not load image"
  | some cv => .ok (computePadsFromImage cv padsCount)

/-- Claim C2: with `1 ≤ N`, `computePadsFromImage` divides the working height
`H` into `N` bands of height `⌊H/N⌋` stacked top to bottom, the last band
extended by the rounding remainder, so that the bands exactly partition
`[0, H)`: every non-last band has height `⌊H/N⌋`, the last has height
`⌊H/N⌋ + H % N`, the heights sum to `H`, every row below `H` lies in exactly
one band, and no row lies in two distinct bands. -/
theorem bands_partition (H N : Nat) (hN : 1 ≤ N) :
    (∀ i, i < N - 1 → bandHeight H N i = H / N) ∧
    bandHeight H N (N - 1) = H / N + H % N ∧
    (∑ i ∈ Finset.range N, bandHeight H N i) = H ∧
    (∀ y, y < H → ∃ i, i < N ∧ inBand H N i y) ∧
    (∀ y i j, i < N → j < N → inBand H N i y → inBand H N j y → i = j) := by
  obtain ⟨m, rfl⟩ : ∃ m, N = m + 1 := ⟨N - 1, (Nat.succ_pred_eq_of_pos hN).symm⟩
  obtain ⟨q, r, hdm, hrlt, hq, hr⟩ :
      ∃ q r, (m + 1) * q + r = H ∧ r < m + 1 ∧ H / (m + 1) = q ∧
        H % (m + 1) = r :=
    ⟨_, _, Nat.div_add_mod H (m + 1), Nat.mod_lt H (by omega), rfl, rfl⟩
  rw [hq, hr]
  have hdm2 : m * q + q + r = H := by rw [← hdm]; ring
  have hmul : ∀ k : Nat, bandStart H (m + 1) k = k * q := fun k => by
    rw [bandStart, hq]
  have hheight_ne : ∀ i, i ≠ m → bandHeight H (m + 1) i = q := by
    intro i hi
    rw [bandHeight, if_neg (by omega), hq]
  have hheight_last : bandHeight H (m + 1) m = q + r := by
    rw [bandHeight, if_pos (by omega), hmul]
    omega
  refine ⟨fun i hi => hheight_ne i (by omega), hheight_last, ?_, ?_, ?_⟩
  · rw [Finset.sum_range_succ]
    have : ∀ i ∈ Finset.range m, bandHeight H (m + 1) i = q := by
      intro i hi
      exact hheight_ne i (by simp at hi; omega)
    rw [Finset.sum_congr rfl this, Finset.sum_const, Finset.card_range,
      hheight_last, smul_eq_mul]
    omega
  · intro y hy
    by_cases hbig : m * q ≤ y
    · refine ⟨m, by omega, ?_⟩
      simp only [inBand, hmul, hheight_last]
      omega
    · have hq1 : 0 < q := by
        rcases Nat.eq_zero_or_pos q with h0 | h1
        · subst h0; simp at hbig
        · exact h1
      have hy2 : y < q * m := by
        have : m * q = q * m := by ring
        omega
      have hdiv_lt : y / q < m := Nat.div_lt_of_lt_mul hy2
      refine ⟨y / q, by omega, ?_⟩
      simp only [inBand, hmul, hheight_ne _ (show y / q ≠ m by omega)]
      have hdm3 : q * (y / q) + y % q = y := Nat.div_add_mod y q
      have hmod : y % q < q := Nat.mod_lt y hq1
      have hcomm : y / q * q = q * (y / q) := by ring
      exact ⟨Nat.div_mul_le_self y q, by omega⟩
  · intro y i j hi hj hiy hjy
    by_contra hne
    wlog hij : i < j generalizing i j
    · exact this j i hj hi hjy hiy (Ne.symm hne) (by omega)
    have him : i < m := by omega
    have hhi : bandHeight H (m + 1) i = q := hheight_ne i (by omega)
    have h1 : y < i * q + q := by
      have := hiy.2
      rw [hmul, hhi] at this
      exact this
    have h2 : j * q ≤ y := by
      have := hjy.1
      rwa [hmul] at this
    have h3 : (i + 1) * q ≤ j * q := Nat.mul_le_mul_right q (by omega)
    have h4 : (i + 1) * q = i * q + q := by ring
    omega

/-- The accumulation loop computes the three channel sums and the pixel
count. -/
theorem sumLoop_eq (pix : List Color) :
    sumLoop pix =
      ((pix.map Color.r).sum, (pix.map Color.g).sum, (pix.map Color.b).sum,
        pix.length) := by
  have key : ∀ (l : List Color) (a b c n : Nat),
      l.foldl
        (fun a c => (a.1 + c.r, a.2.1 + c.g, a.2.2.1 + c.b, a.2.2.2 + 1))
        (a, b, c, n) =
      (a + (l.map Color.r).sum, b + (l.map Color.g).sum,
        c + (l.map Color.b).sum, n + l.length) := by
    intro l
    induction l with
    | nil => simp
    | cons hd tl ih =>
      intro a b c n
      simp only [List.foldl_cons, List.map_cons, List.sum_cons,
        List.length_cons, ih, Prod.mk.injEq]
      omega
  simpa using key pix 0 0 0 0

/-- The sampled rectangle holds `w * h` pixels. -/
theorem rectPixels_length (cv : Canvas) (x1 y1 w h : Nat) :
    (rectPixels cv x1 y1 w h).length = w * h := by
  simp only [rectPixels, List.length_flatMap, Function.comp_def,
    List.length_map, List.length_range]
  simp [List.map_const', mul_comm]

/-- Every sampled pixel is a pixel of the canvas. -/
theorem rectPixels_mem (cv : Canvas) (x1 y1 w h : Nat) (p : Color)
    (hp : p ∈ rectPixels cv x1 y1 w h) : ∃ x y, p = cv.pix x y := by
  simp only [rectPixels, List.mem_flatMap, List.mem_map, List.mem_range] at hp
  obtain ⟨dy, _, dx, _, rfl⟩ := hp
  exact ⟨_, _, rfl⟩

/-- `Math.round` of a pixel-sum mean stays within the byte range. -/
theorem mathRound_le_255 (s c : Nat) (hc : 0 < c) (hs : s ≤ 255 * c) :
    mathRound ((s : ℚ) / (c : ℚ)) ≤ 255 := by
  rw [mathRound, Int.toNat_le]
  have hcq : (0 : ℚ) < (c : ℚ) := by exact_mod_cast hc
  have hdiv : (s : ℚ) / (c : ℚ) ≤ 255 := by
    rw [div_le_iff₀ hcq]
    exact_mod_cast hs
  have : (s : ℚ) / (c : ℚ) + 1 / 2 < 256 := by linarith
  have hfl : ⌊(s : ℚ) / (c : ℚ) + 1 / 2⌋ < 256 := Int.floor_lt.mpr (by
    exact_mod_cast this)
  omega

/-- The mean color of a non-empty sampled rectangle of a valid canvas has
byte channels. -/
theorem meanColor_valid (cv : Canvas) (hv : cv.Valid) (x1 y1 w h : Nat)
    (hw : 0 < w) (hh : 0 < h) : (meanColor cv x1 y1 w h).Valid := by
  have hlen : (rectPixels cv x1 y1 w h).length = w * h :=
    rectPixels_length cv x1 y1 w h
  have hpos : 0 < (rectPixels cv x1 y1 w h).length := by
    rw [hlen]; exact Nat.mul_pos hw hh
  have hchan : ∀ f : Color → Nat, (∀ q : Color, q.Valid → f q ≤ 255) →
      ((rectPixels cv x1 y1 w h).map f).sum ≤
        255 * (rectPixels cv x1 y1 w h).length := by
    intro f hf
    have hb : ∀ x ∈ (rectPixels cv x1 y1 w h).map f, x ≤ 255 := by
      intro x hx
      obtain ⟨p, hp, rfl⟩ := List.mem_map.mp hx
      obtain ⟨a, b, rfl⟩ := rectPixels_mem cv x1 y1 w h p hp
      exact hf _ (hv a b)
    calc ((rectPixels cv x1 y1 w h).map f).sum
        ≤ ((rectPixels cv x1 y1 w h).map f).length • 255 :=
          List.sum_le_card_nsmul _ 255 hb
      _ = 255 * (rectPixels cv x1 y1 w h).length := by
          simp [List.length_map, mul_comm]
  refine ⟨?_, ?_, ?_⟩ <;>
    simp only [meanColor, sumLoop_eq] <;>
    [exact mathRound_le_255 _ _ hpos (hchan Color.r fun q hq => hq.1);
      exact mathRound_le_255 _ _ hpos (hchan Color.g fun q hq => hq.2.1);
      exact mathRound_le_255 _ _ hpos (hchan Color.b fun q hq => hq.2.2)]

/-- A pad color produced by the band loop has byte channels. -/
theorem padOfBand_valid (cv : Canvas) (hv : cv.Valid) (N i : Nat) :
    (padOfBand cv N i).Valid := by
  rw [padOfBand]
  split
  · exact ⟨le_refl 255, le_refl 255, le_refl 255⟩
  · exact meanColor_valid cv hv _ _ _ _ (by decide)
      (lt_of_lt_of_le (by norm_num) (le_max_left 4 _))

/-- Claim C1: for every loaded image and every pad count `N`, the pad sampler
`computePadsFromImage` resolves with exactly `N` color samples, the `i`-th
being the color of band `i` (top-to-bottom index order, no reordering or
filtering), and every channel of every sample is an integer in `[0,255]`;
the only hard failure is a missing/unloadable image (`img.onerror`). -/
theorem computePads_exact (cv : Canvas) (N : Nat) (hv : cv.Valid) :
    computePadsResult (some cv) N = .ok (computePadsFromImage cv N) ∧
    (computePadsFromImage cv N).length = N ∧
    (∀ i (hi : i < (computePadsFromImage cv N).length),
      (computePadsFromImage cv N).get ⟨i, hi⟩ = padOfBand cv N i) ∧
    (∀ p ∈ computePadsFromImage cv N, p.Valid) ∧
    computePadsResult none N = .error "Could not load image" := by
  refine ⟨rfl, by simp [computePadsFromImage], ?_, ?_, rfl⟩
  · intro i hi
    simp [computePadsFromImage]
  · intro p hp
    simp only [computePadsFromImage, List.mem_map, List.mem_range] at hp
    obtain ⟨i, _, rfl⟩ := hp
    exact padOfBand_valid cv hv N i

/-- Witness for C1: a concrete 100-row canvas of constant color `(10,20,30)`
satisfies the validity hypothesis, and the sampler returns 10 pads for
`N = 10`. -/
theorem computePads_exact_witness :
    Canvas.Valid ⟨100, fun _ _ => ⟨10, 20, 30⟩⟩ ∧
    (computePadsFromImage ⟨100, fun _ _ => ⟨10, 20, 30⟩⟩ 10).length = 10 :=
  ⟨fun _ _ => ⟨by norm_num, by norm_num, by norm_num⟩,
    (computePads_exact ⟨100, fun _ _ => ⟨10, 20, 30⟩⟩ 10
      (fun _ _ => ⟨by norm_num, by norm_num, by norm_num⟩)).2.1⟩

/-- Claim C3: within each band the sampler reads a centered rectangle inset
by 15% per side whose spans are at least 4 units on each axis (the horizontal
span is the constant `448 = ⌊640·0.85⌋ - ⌊640·0.15⌋` and the vertical span is
clamped by `Math.max(4, …)`); whenever the computed span is degenerate
(`w <= 0 || hh <= 0`) the band loop pushes the sentinel color `(255,255,255)`
instead of raising, and the sampling call as a whole still resolves. -/
theorem pad_sample_span (cv : Canvas) (N i : Nat) :
    4 ≤ sampleW ∧ 4 ≤ sampleH cv.height N i ∧
    ((sampleW = 0 ∨ sampleH cv.height N i = 0) →
      padOfBand cv N i = ⟨255, 255, 255⟩) ∧
    computePadsResult (some cv) N = .ok (computePadsFromImage cv N) := by
  refine ⟨by decide, le_max_left 4 _, ?_, rfl⟩
  intro hdeg
  rw [padOfBand, if_pos hdeg]

/-- Claim C4: for every band whose sampling rectangle is non-degenerate, the
pad color equals, per channel, the arithmetic mean of that channel over all
sampled pixels, rounded to the nearest integer (`Math.round`, i.e.
`⌊mean + 1/2⌋`). -/
theorem pad_mean_color (cv : Canvas) (N i : Nat) (hw : sampleW ≠ 0)
    (hh : sampleH cv.height N i ≠ 0) :
    padOfBand cv N i =
      { r := (⌊(((rectPixels cv sampleX1 (sampleY1 cv.height N i) sampleW
              (sampleH cv.height N i)).map Color.r).sum : ℚ) /
            ((rectPixels cv sampleX1 (sampleY1 cv.height N i) sampleW
              (sampleH cv.height N i)).length : ℚ) + 1 / 2⌋).toNat
        g := (⌊(((rectPixels cv sampleX1 (sampleY1 cv.height N i) sampleW
              (sampleH cv.height N i)).map Color.g).sum : ℚ) /
            ((rectPixels cv sampleX1 (sampleY1 cv.height N i) sampleW
              (sampleH cv.height N i)).length : ℚ) + 1 / 2⌋).toNat
        b := (⌊(((rectPixels cv sampleX1 (sampleY1 cv.height N i) sampleW
              (sampleH cv.height N i)).map Color.b).sum : ℚ) /
            ((rectPixels cv sampleX1 (sampleY1 cv.height N i) sampleW
              (sampleH cv.height N i)).length : ℚ) + 1 / 2⌋).toNat } := by
  rw [padOfBand, if_neg (by rintro (h | h) <;> [exact hw h; exact hh h])]
  simp only [meanColor, sumLoop_eq, mathRound]

/-- Witness for C4: both non-degeneracy hypotheses hold at the concrete
canvas of height 100 with 10 bands, band 0. -/
theorem pad_mean_color_witness :
    sampleW ≠ 0 ∧ sampleH 100 10 0 ≠ 0 ∧
    padOfBand ⟨100, fun _ _ => ⟨10, 20, 30⟩⟩ 10 0 =
      { r := (⌊(((rectPixels ⟨100, fun _ _ => ⟨10, 20, 30⟩⟩ sampleX1
              (sampleY1 100 10 0) sampleW (sampleH 100 10 0)).map
              Color.r).sum : ℚ) /
            ((rectPixels ⟨100, fun _ _ => ⟨10, 20, 30⟩⟩ sampleX1
              (sampleY1 100 10 0) sampleW
              (sampleH 100 10 0)).length : ℚ) + 1 / 2⌋).toNat
        g := (⌊(((rectPixels ⟨100, fun _ _ => ⟨10, 20, 30⟩⟩ sampleX1
              (sampleY1 100 10 0) sampleW (sampleH 100 10 0)).map
              Color.g).sum : ℚ) /
            ((rectPixels ⟨100, fun _ _ => ⟨10, 20, 30⟩⟩ sampleX1
              (sampleY1 100 10 0) sampleW
              (sampleH 100 10 0)).length : ℚ) + 1 / 2⌋).toNat
        b := (⌊(((rectPixels ⟨100, fun _ _ => ⟨10, 20, 30⟩⟩ sampleX1
              (sampleY1 100 10 0) sampleW (sampleH 100 10 0)).map
              Color.b).sum : ℚ) /
            ((rectPixels ⟨100, fun _ _ => ⟨10, 20, 30⟩⟩ sampleX1
              (sampleY1 100 10 0) sampleW
              (sampleH 100 10 0)).length : ℚ) + 1 / 2⌋).toNat } :=
  ⟨by decide, by decide,
    pad_mean_color ⟨100, fun _ _ => ⟨10, 20, 30⟩⟩ 10 0 (by decide)
      (by decide)⟩

/-- Witness for C2: the band partition at the concrete working height 100
with 10 pads. -/
theorem bands_partition_witness :
    (1 : Nat) ≤ 10 ∧ (∑ i ∈ Finset.range 10, bandHeight 100 10 i) = 100 :=
  ⟨by norm_num, (bands_partition 100 10 (by norm_num)).2.2.1⟩

/-- One row of a ReferenceMap: the `{analyte, level, color}` entries of the
`mapping` returned by the calibration boundary and stored by the App as
`refMap`. -/
structure AnalyteDef where
  analyte : String
  level : String
  referenceColor : Color
deriving DecidableEq, Repr

/-- One entry of the diagnosis output `{analyte, diagnosis, confidence}`. -/
structure DiagnosisResult where
  analyte : String
  diagnosis : String
  confidence : ℝ

/-- Modelled from the spec: the backend DiagnosisMatcher (the FastAPI
`/diagnose` endpoint) is not under src/; spec §4.4 step 1 defines the
distance as plain RGB Euclidean distance
`d = sqrt(Δr² + Δg² + Δb²)`. -/
noncomputable def colorDist (p q : Color) : ℝ :=
  Real.sqrt (((p.r : ℝ) - (q.r : ℝ)) ^ 2 + ((p.g : ℝ) - (q.g : ℝ)) ^ 2 +
    ((p.b : ℝ) - (q.b : ℝ)) ^ 2)

/-- Modelled from the spec: `dMax = sqrt(255²·3)` (spec §4.4 step 2). -/
noncomputable def dMax : ℝ := Real.sqrt (255 ^ 2 * 3)

/-- Modelled from the spec: confidence `= clamp(1 − d/dMax, 0, 1)`
(spec §4.4 step 2). -/
noncomputable def confidence (p q : Color) : ℝ :=
  max 0 (min 1 (1 - colorDist p q / dMax))

/-- Modelled from the spec: the DiagnosisMatcher (spec §4.4): positional
matching of the strip pads `P` against the ReferenceMap `M`, failing with
`ShapeMismatch` when the lengths differ and otherwise producing one result
per index with the level label and the confidence. -/
noncomputable def diagnose (M : List AnalyteDef) (P : List Color) :
    Except String (List DiagnosisResult) :=
  if P.length ≠ M.length then .error "ShapeMismatch"
  else .ok (List.zipWith
    (fun a p => ⟨a.analyte, a.level, confidence p a.referenceColor⟩) M P)

/-- The distance of a color to itself is zero. -/
theorem colorDist_self (p : Color) : colorDist p p = 0 := by
  simp [colorDist]

/-- Claim C5: for a ReferenceMap `M` and pad list `P` of equal length,
`diagnose` succeeds with one result per index whose confidence follows the
law `clamp(1 − d/dMax, 0, 1)` with `d` the RGB Euclidean distance; in
particular if every pad color equals the reference color at its index, every
confidence is `1`. -/
theorem diagnose_confidence (M : List AnalyteDef) (P : List Color)
    (hlen : P.length = M.length) :
    ∃ rs, diagnose M P = .ok rs ∧ rs.length = M.length ∧
      (∀ i (hi : i < rs.length) (hp : i < P.length) (hm : i < M.length),
        (rs.get ⟨i, hi⟩).confidence =
          max 0 (min 1 (1 - colorDist (P.get ⟨i, hp⟩)
            ((M.get ⟨i, hm⟩).referenceColor) / dMax))) ∧
      ((∀ i (hp : i < P.length) (hm : i < M.length),
          P.get ⟨i, hp⟩ = (M.get ⟨i, hm⟩).referenceColor) →
        ∀ i (hi : i < rs.length), (rs.get ⟨i, hi⟩).confidence = 1) := by
  refine ⟨_, by rw [diagnose, if_neg (by omega)], ?_, ?_, ?_⟩
  · simp [List.length_zipWith, hlen]
  · intro i hi hp hm
    simp only [List.get_eq_getElem, List.getElem_zipWith]
    rfl
  · intro hcols i hi
    have hp : i < P.length := by
      simp [List.length_zipWith, hlen] at hi
      omega
    have hm : i < M.length := by omega
    simp only [List.get_eq_getElem, List.getElem_zipWith]
    show confidence (P.get ⟨i, hp⟩) ((M.get ⟨i, hm⟩).referenceColor) = 1
    rw [confidence, hcols i hp hm, colorDist_self, zero_div, sub_zero,
      min_self, max_eq_right zero_le_one]

/-- Witness for C5: a one-row map and a matching one-pad strip. -/
theorem diagnose_confidence_witness :
    ∃ rs, diagnose [⟨"Glucose", "Negative", ⟨1, 2, 3⟩⟩] [(⟨1, 2, 3⟩ : Color)] =
      .ok rs ∧ rs.length = 1 :=
  (diagnose_confidence [⟨"Glucose", "Negative", ⟨1, 2, 3⟩⟩]
    [(⟨1, 2, 3⟩ : Color)] rfl).elim fun rs h => ⟨rs, h.1, h.2.1⟩

/-- The calibration request assembled by `calibrateChartFromDataUrl`
(eiApi.js): a POST of the image blob to
`${BASE}/calibrate?expected_rows=10`.  The function's only parameter is the
image data URL; the query string is the literal `expected_rows=10`. -/
structure CalibrateRequest where
  expected_rows : Nat
  fileDataUrl : String
deriving DecidableEq, Repr

/-- `calibrateChartFromDataUrl` (eiApi.js): builds the calibration request
from the data URL alone. -/
def calibrateChartFromDataUrl (dataUrl : String) : CalibrateRequest :=
  { expected_rows := 10, fileDataUrl := dataUrl }

/-- Modelled from the spec: the backend Calibrator (the FastAPI `/calibrate`
endpoint) is not under src/; spec §4.3: if the sampled row count does not
equal `expected_rows` it fails with `CalibrationMismatch`, otherwise it zips
samples and labels by index into a ReferenceMap. -/
def calibrate (samples : List Color) (labels : List (String × String))
    (expected : Nat) : Except String (List AnalyteDef) :=
  if samples.length ≠ expected then .error "CalibrationMismatch"
  else .ok (List.zipWith (fun l s => ⟨l.1, l.2, s⟩) labels samples)

/-- Claim C10: the frontend calibration client always issues its request with
`expected_rows` fixed to 10 (for every input data URL), so a chart whose
sampled row count `k` differs from 10 always yields a
`CalibrationMismatch` failure through this client; `expected_rows` is not a
parameter of the public frontend interface (`calibrateChartFromDataUrl`
takes only the data URL). -/
theorem calibrate_fixed_rows (dataUrl : String) (samples : List Color)
    (labels : List (String × String)) (hk : samples.length ≠ 10) :
    (calibrateChartFromDataUrl dataUrl).expected_rows = 10 ∧
    calibrate samples labels (calibrateChartFromDataUrl dataUrl).expected_rows =
      .error "CalibrationMismatch" :=
  ⟨rfl, by
    rw [calibrate, if_pos (show samples.length ≠
      (calibrateChartFromDataUrl dataUrl).expected_rows from hk)]⟩

/-- Witness for C10: an 8-row chart sample list fails against the fixed
`expected_rows=10` of the frontend client. -/
theorem calibrate_fixed_rows_witness :
    (List.replicate 8 (⟨0, 0, 0⟩ : Color)).length ≠ 10 ∧
    calibrate (List.replicate 8 (⟨0, 0, 0⟩ : Color)) []
      (calibrateChartFromDataUrl "data:image/jpeg;base64,abc").expected_rows =
      .error "CalibrationMismatch" :=
  ⟨by decide,
    (calibrate_fixed_rows "data:image/jpeg;base64,abc"
      (List.replicate 8 ⟨0, 0, 0⟩) [] (by decide)).2⟩

/-- One detection examined by the main frame loop of StripAnalyzer: `t` is
the `Date.now()` timestamp (ms) at the moment the loop examines it, `value`
the detector confidence and `label` the detected class. -/
structure Detection where
  t : Int
  value : ℚ
  label : String
deriving DecidableEq, Repr

/-- The send condition of the StripAnalyzer frame loop (`loop`): a detection
is forwarded to the backend iff `det.value > 0.5` and
`now - lastSent > 2000` and `det.label === "urine_strip"`. -/
def sendsDetection (lastSent : Int) (d : Detection) : Bool :=
  if d.value > 1 / 2 then
    decide (d.t - lastSent > 2000) && (d.label == "urine_strip")
  else false

/-- The timestamps at which the frame loop sends a detection to the backend,
in processing order, threading `lastSent` exactly as the loop does
(`lastSent = now` on every send, initialised to 0). -/
def gateTrace (lastSent : Int) : List Detection → List Int
  | [] => []
  | d :: ds =>
    if sendsDetection lastSent d then d.t :: gateTrace d.t ds
    else gateTrace lastSent ds

/-- What a send implies: confidence above 0.5, the strip label, and more than
the 2000 ms cooldown elapsed since the last send. -/
theorem sendsDetection_spec (lastSent : Int) (d : Detection)
    (h : sendsDetection lastSent d = true) :
    1 / 2 < d.value ∧ d.label = "urine_strip" ∧ 2000 < d.t - lastSent := by
  rw [sendsDetection] at h
  split at h
  · simp only [Bool.and_eq_true, decide_eq_true_eq, beq_iff_eq] at h
    exact ⟨by assumption, h.2, h.1⟩
  · simp at h

/-- Counterexample to C6 as stated: no acceptance threshold in the claimed
range 0.6–0.85 governs the gate, because a detection with confidence 0.55 is
sent (the gate's actual threshold constant is 0.5). -/
theorem gate_threshold_not_in_range :
    ¬ ∃ θ : ℚ, 6 / 10 ≤ θ ∧ θ ≤ 85 / 100 ∧
      ∀ (lastSent : Int) (d : Detection),
        sendsDetection lastSent d = true → θ < d.value := by
  rintro ⟨θ, h1, _, h3⟩
  have hsent : sendsDetection 0 ⟨10000, 11 / 20, "urine_strip"⟩ = true := by
    rw [sendsDetection]
    norm_num
  have h4 := h3 0 ⟨10000, 11 / 20, "urine_strip"⟩ hsent
  have : θ < 11 / 20 := h4
  linarith

/-- Claim C6 (amended): the detection gate forwards a frame's detection to
the backend only if the detector confidence exceeds the acceptance threshold
0.5 (not a value in 0.6–0.85), the label is `urine_strip`, and the cooldown
has elapsed; a detection at or below 0.5 is never sent. -/
theorem gate_threshold_half (lastSent : Int) (d : Detection)
    (h : sendsDetection lastSent d = true) :
    1 / 2 < d.value ∧ d.label = "urine_strip" ∧ 2000 < d.t - lastSent :=
  sendsDetection_spec lastSent d h

/-- Witness for C6 (amended): a concrete sent detection. -/
theorem gate_threshold_half_witness :
    sendsDetection 0 ⟨10000, 11 / 20, "urine_strip"⟩ = true ∧
    ((1 : ℚ) / 2 < 11 / 20 ∧ "urine_strip" = "urine_strip" ∧
      (2000 : Int) < 10000 - 0) :=
  ⟨by rw [sendsDetection]; norm_num,
    gate_threshold_half 0 ⟨10000, 11 / 20, "urine_strip"⟩
      (by rw [sendsDetection]; norm_num)⟩

/-- Any send recorded later in the trace is more than 2000 ms after the
`lastSent` the trace started from. -/
theorem gateTrace_lower (ds : List Detection) :
    ∀ lastSent x, x ∈ gateTrace lastSent ds → lastSent + 2000 < x := by
  induction ds with
  | nil => intro lastSent x hx; simp [gateTrace] at hx
  | cons d ds ih =>
    intro lastSent x hx
    rw [gateTrace] at hx
    by_cases hs : sendsDetection lastSent d = true
    · rw [if_pos hs] at hx
      have hd := (sendsDetection_spec lastSent d hs).2.2
      rcases List.mem_cons.mp hx with rfl | hmem
      · omega
      · have := ih d.t x hmem
        omega
    · rw [if_neg hs] at hx
      exact ih lastSent x hx

/-- Claim C7: in every execution of the detection loop, any two consecutive
sends to the backend are separated by at least the 2000 ms cooldown (the
loop's `sendCooldown`, within the 1.5–3 s default range): consecutive
entries of the send-timestamp trace differ by at least 2000 ms, for every
detection sequence and every initial `lastSent`. -/
theorem gate_cooldown (lastSent : Int) (ds : List Detection) :
    List.Chain' (fun a b => 2000 ≤ b - a) (gateTrace lastSent ds) := by
  induction ds generalizing lastSent with
  | nil => simp [gateTrace]
  | cons d ds ih =>
    rw [gateTrace]
    by_cases hs : sendsDetection lastSent d = true
    · rw [if_pos hs]
      refine List.chain'_cons'.mpr ⟨?_, ih d.t⟩
      intro y hy
      have := gateTrace_lower ds d.t y (List.mem_of_mem_head? hy)
      omega
    · rw [if_neg hs]
      exact ih lastSent

/-- A detector bounding box `{x, y, width, height}` in the detector's
input-resolution coordinate space, as consumed by `captureCrop`
(StripAnalyzer). -/
structure DetBox where
  x : ℚ
  y : ℚ
  width : ℚ
  height : ℚ
deriving DecidableEq, Repr

/-- A crop rectangle in frame (video) space. -/
structure CropRect where
  x : ℚ
  y : ℚ
  w : ℚ
  h : ℚ
deriving DecidableEq, Repr

/-- `captureCrop` (StripAnalyzer): scales the detector box to frame space by
`(videoWidth/modelWidth, videoHeight/modelHeight)`, clamps `x` and `y` below
at 0 (`Math.max(0, …)`), and returns `null` when the scaled width or height
is non-positive (`if (w <= 0 || h <= 0) return null`); otherwise the crop
rectangle. -/
def captureCrop (videoWidth videoHeight modelWidth modelHeight : ℚ)
    (det : DetBox) : Option CropRect :=
  let scaleX := videoWidth / modelWidth
  let scaleY := videoHeight / modelHeight
  let x := max 0 (det.x * scaleX)
  let y := max 0 (det.y * scaleY)
  let w := det.width * scaleX
  let h := det.height * scaleY
  if w ≤ 0 ∨ h ≤ 0 then none else some ⟨x, y, w, h⟩

/-- Counterexample to C8 as stated: the crop coordinates are NOT clamped to
the frame bounds.  On a 640×480 frame with a 320×320 detector input, the box
`{x:640, y:0, width:10, height:10}` scales to `x = 1280`, which lies entirely
outside the 640-wide frame, yet `captureCrop` returns it unclamped. -/
theorem captureCrop_not_clamped :
    captureCrop 640 480 320 320 ⟨640, 0, 10, 10⟩ =
      some ⟨1280, 0, 20, 15⟩ ∧ ¬ ((1280 : ℚ) + 20 ≤ 640) := by
  constructor
  · rw [captureCrop]
    norm_num
  · norm_num

/-- Claim C8 (amended): `captureCrop` scales the region coordinates from
detector-input space to frame space and clamps `x`, `y` below at 0 (it does
not clamp to the upper frame bounds), and a box whose scaled width or height
is non-positive produces the `null` (NoRegion) result rather than a cropped
buffer: the result is `none` exactly when the scaled area is
non-positive, and any returned rectangle has non-negative origin, positive
spans, and exactly the scaled-and-lower-clamped coordinates. -/
theorem captureCrop_spec (videoWidth videoHeight modelWidth modelHeight : ℚ)
    (det : DetBox) :
    (captureCrop videoWidth videoHeight modelWidth modelHeight det = none ↔
      det.width * (videoWidth / modelWidth) ≤ 0 ∨
      det.height * (videoHeight / modelHeight) ≤ 0) ∧
    ∀ rect, captureCrop videoWidth videoHeight modelWidth modelHeight det =
        some rect →
      0 ≤ rect.x ∧ 0 ≤ rect.y ∧ 0 < rect.w ∧ 0 < rect.h ∧
      rect.x = max 0 (det.x * (videoWidth / modelWidth)) ∧
      rect.y = max 0 (det.y * (videoHeight / modelHeight)) ∧
      rect.w = det.width * (videoWidth / modelWidth) ∧
      rect.h = det.height * (videoHeight / modelHeight) := by
  rw [captureCrop]
  by_cases hdeg : det.width * (videoWidth / modelWidth) ≤ 0 ∨
      det.height * (videoHeight / modelHeight) ≤ 0
  · rw [if_pos hdeg]
    exact ⟨by simp [hdeg], fun rect h => by simp at h⟩
  · rw [if_neg hdeg]
    push_neg at hdeg
    refine ⟨by simp [hdeg.1.not_le, hdeg.2.not_le], ?_⟩
    rintro rect hrect
    injection hrect with hrect
    subst hrect
    exact ⟨le_max_left 0 _, le_max_left 0 _, hdeg.1, hdeg.2, rfl, rfl, rfl,
      rfl⟩

/-- The body of the `/diagnose` request built by `diagnosePads` (eiApi.js):
`{ pads: […], ref_map: refMap }` — the caller-held ReferenceMap travels
inside the request itself. -/
structure DiagnoseRequest where
  pads : List Color
  ref_map : List AnalyteDef
deriving DecidableEq, Repr

/-- The two App events that touch the reference map: a successful calibration
(`handleMappingUpdated`, which stores the returned mapping in the `refMap`
state) and an Analyze click (`handleAnalyze` → `handleDiagnosisRequest`). -/
inductive AppEvent
  | calibrated (mapping : List AnalyteDef)
  | analyze (pads : List Color)
deriving DecidableEq, Repr

/-- `handleDiagnosisRequest` (App): if no calibration is stored
(`if (!refMap)`), alert and return without calling the API; otherwise call
`diagnosePads(pads, refMap)`, whose request body carries the pads and the
reference map. -/
def diagnosisCall (refMap : Option (List AnalyteDef)) (pads : List Color) :
    Option DiagnoseRequest :=
  match refMap with
  | none => none
  | some m => some ⟨pads, m⟩

/-- The diagnosis requests the App issues over an event trace, threading the
`refMap` state exactly as the component does. -/
def appRun (refMap : Option (List AnalyteDef)) :
    List AppEvent → List DiagnoseRequest
  | [] => []
  | .calibrated m :: es => appRun (some m) es
  | .analyze pads :: es =>
    match diagnosisCall refMap pads with
    | none => appRun refMap es
    | some req => req :: appRun refMap es

/-- Every issued request's reference map is either the initially held one or
one produced by a calibration event of the trace. -/
theorem appRun_refmap (es : List AppEvent) :
    ∀ s, ∀ req ∈ appRun s es,
      AppEvent.calibrated req.ref_map ∈ es ∨ s = some req.ref_map := by
  induction es with
  | nil => intro s req h; simp [appRun] at h
  | cons e es ih =>
    intro s req h
    cases e with
    | calibrated m =>
      rw [appRun] at h
      rcases ih (some m) req h with hmem | hs
      · exact Or.inl (List.mem_cons_of_mem _ hmem)
      · injection hs with hs
        subst hs
        exact Or.inl (List.mem_cons_self _ _)
    | analyze pads =>
      cases s with
      | none =>
        rw [appRun] at h
        rcases ih none req h with hmem | hs
        · exact Or.inl (List.mem_cons_of_mem _ hmem)
        · exact absurd hs (by simp)
      | some m =>
        rw [appRun] at h
        rcases List.mem_cons.mp h with rfl | hmem
        · exact Or.inr rfl
        · rcases ih (some m) req hmem with hmem' | hs
          · exact Or.inl (List.mem_cons_of_mem _ hmem')
          · exact Or.inr hs

/-- With no held map and no calibration event, the App issues no request. -/
theorem appRun_none_of_no_calib (es : List AppEvent)
    (hnc : ∀ m, AppEvent.calibrated m ∉ es) : appRun none es = [] := by
  induction es with
  | nil => rfl
  | cons e es ih =>
    cases e with
    | calibrated m => exact absurd (List.mem_cons_self _ _) (hnc m)
    | analyze pads =>
      rw [appRun]
      exact ih fun m hm => hnc m (List.mem_cons_of_mem _ hm)

/-- Claim C9: every diagnosis call explicitly carries the caller-held
ReferenceMap inside the request (`ref_map` travels alongside the pad colors),
no diagnosis call is issued when no ReferenceMap has been produced by a prior
calibration (starting from the App's initial `refMap = null`, a request can
only exist after a calibration event supplied its map), and the request is a
pure function of the explicit `(refMap, pads)` arguments — there is no other
calibration state for it to read. -/
theorem diagnosis_carries_refmap (es : List AppEvent) :
    (∀ m pads, diagnosisCall (some m) pads = some ⟨pads, m⟩) ∧
    (∀ pads, diagnosisCall none pads = none) ∧
    ((∀ m, AppEvent.calibrated m ∉ es) → appRun none es = []) ∧
    (∀ req ∈ appRun none es, AppEvent.calibrated req.ref_map ∈ es) := by
  refine ⟨fun m pads => rfl, fun pads => rfl,
    appRun_none_of_no_calib es, ?_⟩
  intro req hreq
  rcases appRun_refmap es none req hreq with hmem | hs
  · exact hmem
  · exact absurd hs (by simp)
